import Mathlib

set_option maxRecDepth 100000

/- The Batteries rational-number operations are marked irreducible, which blocks
kernel evaluation of concrete instances; restore semireducibility so `decide`
can evaluate the embedded program on concrete inputs. -/
attribute [local semireducible] Rat.mul Rat.add Rat.sub Rat.inv

/-!
Verification of the NutriScan ingredient-analysis core (`Nutriscan/final1.py`,
class `FoodAnalyzer`) against its natural-language specification.

The embedding is a direct shallow translation of the Python source:
* pandas rows become `ReferenceEntry`; the dataframe becomes a `List ReferenceEntry`;
* the Python `dict` `ingredient_map` becomes an insertion-ordered association list
  (`Dict`) with Python-dict insert semantics (overwrite keeps position, new key
  appends at the end); iteration order is the list order, as in CPython;
* the regex rewrites of `clean_ingredient_text` become dedicated character-level
  scanners implementing exactly the fixed patterns the source uses;
* the two external similarity oracles (`difflib.SequenceMatcher.ratio` and the
  sklearn TF-IDF transform / cosine-similarity / argmax block) are fields of the
  `FoodAnalyzer` structure: they are library code outside this repository, and every
  theorem below holds for an arbitrary choice of them;
* Python floats are modelled as exact rationals (`ℚ`), `round(x, 2)` and the
  `{:.2f}` format as round-half-to-even on rationals;
* the `lru_cache` on `find_best_match` is omitted: it is a pure memoization with no
  observable effect on results.
-/

/-- One row of the reference dataset `food_ingridients.csv` after
`df.fillna("")`: columns Food_Ingredient, Nutrition_Score, Health_Label,
Remarks, Category. -/
structure ReferenceEntry where
  food_Ingredient : String
  nutrition_Score : ℚ
  health_Label : String
  remarks : String
  category : String
  deriving DecidableEq, Repr

/-- Placeholder row used to make `df.iloc` total; every index the code actually
uses is in range, and all theorems are insensitive to this value. -/
def defaultEntry : ReferenceEntry := ⟨"", 0, "", "", ""⟩

/- ### Python `dict` as an insertion-ordered association list -/

/-- Insertion-ordered association list standing for a Python `dict`:
assigning to an existing key keeps its position, a new key is appended. -/
def Dict := List (String × Nat)

/-- Python `d[k] = v`. -/
def dictInsert : List (String × Nat) → String → Nat → List (String × Nat)
  | [], k, v => [(k, v)]
  | p :: m, k, v => if p.1 = k then (k, v) :: m else p :: dictInsert m k v

/-- Python `d.get(k)` / `d[k]` lookup. -/
def dictGet (m : List (String × Nat)) (k : String) : Option Nat :=
  match m with
  | [] => none
  | p :: m => if p.1 = k then some p.2 else dictGet m k

/-- Python `k in d`. -/
def dictMem (m : List (String × Nat)) (k : String) : Bool :=
  (dictGet m k).isSome

/- ### Python string primitives -/

/-- Python `str.lower()` (ASCII, which covers all catalog and label data). -/
def strLower (s : String) : String := ⟨s.data.map Char.toLower⟩

/-- Python `needle in hay` substring test on lists of characters. -/
def listInfixOf (n : List Char) : List Char → Bool
  | [] => n.isEmpty
  | c :: t => n.isPrefixOf (c :: t) || listInfixOf n t

/-- Python `needle in hay` substring test. -/
def pyIn (needle hay : String) : Bool := listInfixOf needle.data hay.data

/-- Python `str.strip()` on lists of characters. -/
def trimChars (l : List Char) : List Char :=
  ((l.dropWhile Char.isWhitespace).reverse.dropWhile Char.isWhitespace).reverse

/-- Python `str.strip()`. -/
def pyStrip (s : String) : String := ⟨trimChars s.data⟩

/-- Python `str.split(sep)` for a one-character separator: splits at every
occurrence, keeping empty pieces. -/
def splitOnChar (c : Char) : List Char → List (List Char)
  | [] => [[]]
  | d :: t =>
    match splitOnChar c t with
    | [] => [[]]
    | h :: r => if d = c then [] :: h :: r else (d :: h) :: r

/-- Split at every character satisfying `p`, keeping empty pieces. -/
def splitPred (p : Char → Bool) : List Char → List (List Char)
  | [] => [[]]
  | d :: t =>
    match splitPred p t with
    | [] => [[]]
    | h :: r => if p d then [] :: h :: r else (d :: h) :: r

/-- Python regex word character `\w` (over the ASCII data this system handles). -/
def isWordChar (c : Char) : Bool := c.isAlphanum || c = '_'

/-- Python `str.split()`: split on whitespace runs, dropping empty pieces. -/
def pyWords (s : String) : List String :=
  ((splitPred Char.isWhitespace s.data).map (fun l => (⟨l⟩ : String))).filter (fun w => w ≠ "")

/- ### Rounding and float formatting -/

/-- Round-half-to-even to an integer, the idealization over `ℚ` of Python's
`round` on floats. -/
def roundHalfEven (q : ℚ) : ℤ :=
  if q - ⌊q⌋ < 1/2 then ⌊q⌋
  else if q - ⌊q⌋ > 1/2 then ⌊q⌋ + 1
  else if ⌊q⌋ % 2 = 0 then ⌊q⌋ else ⌊q⌋ + 1

/-- Python `round(q, 2)`. -/
def round2 (q : ℚ) : ℚ := (roundHalfEven (q * 100) : ℚ) / 100

/-- Python `f"{q:.2f}"` for the nonnegative scores this system formats. -/
def fmt2 (q : ℚ) : String :=
  let n : ℤ := roundHalfEven (q * 100)
  let ip : ℤ := n / 100
  let fp : ℤ := n % 100
  toString ip ++ "." ++ (if fp < 10 then "0" ++ toString fp else toString fp)

/- ### Generic left-to-right regex-substitution scanner -/

/-- One pass of `re.sub` for the fixed patterns of the source: `m prevW t` returns
the length of the (unique, leftmost-first) pattern match starting at `t`, given
whether the previous character of the original text was a word character; matched
spans are replaced by `repl` and scanning resumes after the match, exactly as
`re.sub` does. `fuel` is an upper bound on steps (each step consumes at least one
character of the original text). -/
def scanSub : Nat → (Bool → List Char → Option Nat) → List Char → Bool → List Char → List Char
  | 0, _, _, _, s => s
  | _ + 1, _, _, _, [] => []
  | fuel + 1, m, repl, prevW, c :: rest =>
    match m prevW (c :: rest) with
    | some k =>
      if k = 0 then c :: scanSub fuel m repl (isWordChar c) rest
      else
        let consumed := (c :: rest).take k
        let nextW := match consumed.getLast? with
          | some d => isWordChar d
          | none => prevW
        repl ++ scanSub fuel m repl nextW ((c :: rest).drop k)
    | none => c :: scanSub fuel m repl (isWordChar c) rest

/-- Run a scanner over a whole string (start of text counts as a non-word
left context). -/
def runSub (m : Bool → List Char → Option Nat) (repl : String) (s : String) : String :=
  ⟨scanSub (s.data.length + 1) m repl.data false s.data⟩

/-- Match a literal at the head of the text, returning the remainder. -/
def dropLit (w : String) (t : List Char) : Option (List Char) :=
  if w.data.isPrefixOf t then some (t.drop w.data.length) else none

/-- Match `\s+` (one or more whitespace characters), returning the remainder. -/
def dropWs1 (t : List Char) : Option (List Char) :=
  match t with
  | c :: r => if c.isWhitespace then some (r.dropWhile Char.isWhitespace) else none
  | [] => none

/-- Number of characters a sub-matcher consumed. -/
def consumedLen (t rem : List Char) : Nat := t.length - rem.length

/- ### Static lookup tables (source lines 21-69) -/

/-- Table `E_NUMBER_MAP`, in source (= dict iteration) order. -/
def E_NUMBER_MAP : List (String × String) :=
  [("e330", "citric acid"), ("e500", "sodium carbonate"), ("e501", "potassium carbonate"),
   ("e508", "potassium chloride"), ("e170", "calcium carbonate"), ("e412", "guar gum"),
   ("e452", "sodium phosphate"), ("e100", "curcumin"), ("e627", "disodium guanylate"),
   ("e631", "disodium inosinate"), ("e551", "silicon dioxide"), ("e621", "monosodium glutamate"),
   ("e322", "lecithin"), ("e471", "mono and diglycerides"), ("e407", "carrageenan"),
   ("e410", "locust bean gum"), ("e415", "xanthan gum"), ("e150", "caramel"),
   ("e202", "potassium sorbate"), ("e211", "sodium benzoate"), ("e223", "sodium metabisulphite"),
   ("e300", "ascorbic acid"), ("e503", "ammonium carbonate")]

/-- Table `INDIAN_INGREDIENT_MAP`, in source (= dict iteration) order. -/
def INDIAN_INGREDIENT_MAP : List (String × String) :=
  [("maida", "refined wheat flour"), ("atta", "whole wheat flour"), ("besan", "gram flour"),
   ("hing", "asafoetida"), ("jeera", "cumin"), ("haldi", "turmeric"),
   ("dhaniya", "coriander"), ("elaichi", "cardamom"), ("dalchini", "cinnamon"),
   ("kalonji", "nigella seeds"), ("methi", "fenugreek"), ("ajwain", "carom seeds"),
   ("til", "sesame"), ("kaju", "cashew"), ("badam", "almond"),
   ("pista", "pistachio"), ("khoya", "milk solids"), ("paneer", "cottage cheese")]

/- ### clean_ingredient_text (source lines 119-157) -/

/-- Matcher for `re.sub(rf"\b{w}\b", repl, text)` where `w` consists of word
characters: left boundary from the scanner context, right boundary checked on the
remainder. -/
def wordMatcher (w : String) (prevW : Bool) (t : List Char) : Option Nat :=
  if prevW then none
  else match dropLit w t with
    | some rem =>
      match rem with
      | [] => some w.data.length
      | d :: _ => if isWordChar d then none else some w.data.length
    | none => none

/-- Python `re.sub(rf"\b{w}\b", repl, text)`: standalone-word replacement. -/
def replaceWordAll (w repl s : String) : String := runSub (wordMatcher w) repl s

/-- Matcher for `allergen\s+(advice|information)[:\s].*` with `re.DOTALL`:
on a hit everything from the match start to the end of the string is consumed. -/
def allergenMatcher (_ : Bool) (t : List Char) : Option Nat := do
  let r1 ← dropLit "allergen" t
  let r2 ← dropWs1 r1
  let r3 ← (dropLit "advice" r2).orElse (fun _ => dropLit "information" r2)
  match r3 with
  | c :: _ => if c = ':' || c.isWhitespace then some t.length else none
  | [] => none

/-- Matcher for `may contain traces of.*` (DOTALL). -/
def tracesMatcher (_ : Bool) (t : List Char) : Option Nat :=
  (dropLit "may contain traces of" t).map (fun _ => t.length)

/-- Matcher for `storage instructions[:\s].*` (DOTALL). -/
def storageMatcher (_ : Bool) (t : List Char) : Option Nat := do
  let r1 ← dropLit "storage instructions" t
  match r1 with
  | c :: _ => if c = ':' || c.isWhitespace then some t.length else none
  | [] => none

/-- Matcher for `best before[:\s].*` (DOTALL). -/
def bestBeforeMatcher (_ : Bool) (t : List Char) : Option Nat := do
  let r1 ← dropLit "best before" t
  match r1 with
  | c :: _ => if c = ':' || c.isWhitespace then some t.length else none
  | [] => none

/-- Matcher for the literal `contains added permitted`. -/
def cafMatcher (_ : Bool) (t : List Char) : Option Nat :=
  (dropLit "contains added permitted" t).map (fun _ => "contains added permitted".data.length)

/-- The five `removal_patterns` applied in source order (lines 124-132). -/
def applyRemovalPatterns (s : String) : String :=
  let s1 := runSub allergenMatcher "" s
  let s2 := runSub tracesMatcher "" s1
  let s3 := runSub storageMatcher "" s2
  let s4 := runSub bestBeforeMatcher "" s3
  runSub cafMatcher "" s4

/-- Matcher for `\s*[\[\(].*?[\]\)]` (no DOTALL: the lazy span may not cross a
newline; the leading `\s*` greedily absorbs whitespace before the bracket). -/
def bracketMatcher (_ : Bool) (t : List Char) : Option Nat :=
  let ws := t.takeWhile Char.isWhitespace
  match t.drop ws.length with
  | c :: inner =>
    if c = '[' || c = '(' then
      let body := inner.takeWhile (fun d => d ≠ ']' && d ≠ ')' && d ≠ '\n')
      match inner.drop body.length with
      | d :: _ =>
        if d = ']' || d = ')' then some (ws.length + 1 + body.length + 1) else none
      | [] => none
    else none
  | [] => none

/-- The role alternatives of the `as <role>` qualifier pattern, in source order. -/
def roleWords : List String :=
  ["thickener", "stabilizer", "emulsifier", "preservative", "colour", "flavor",
   "acidity regulator", "raising agent", "anticaking agent", "mineral", "vitamin"]

/-- Matcher for `\s+as\s+(thickener|...|vitamin)` (no trailing boundary: a role
word may match as a prefix of a longer word, as the regex does). -/
def asRoleMatcher (_ : Bool) (t : List Char) : Option Nat := do
  let r1 ← dropWs1 t
  let r2 ← dropLit "as" r1
  let r3 ← dropWs1 r2
  let role ← roleWords.find? (fun w => w.data.isPrefixOf r3)
  some (consumedLen t r3 + role.data.length)

/-- Python `re.sub(r"[;|\n\t&]", ",", text)`. -/
def normalizeSeparators (s : String) : String :=
  ⟨s.data.map (fun c => if c = ';' || c = '|' || c = '\n' || c = '\t' || c = '&' then ',' else c)⟩

/-- Matcher for `\b\d+\.\s*` (enumeration markers such as `1. `). -/
def enumMatcher (prevW : Bool) (t : List Char) : Option Nat :=
  if prevW then none
  else
    let ds := t.takeWhile Char.isDigit
    if ds.isEmpty then none
    else match t.drop ds.length with
      | '.' :: rest => some (ds.length + 1 + (rest.takeWhile Char.isWhitespace).length)
      | _ => none

/-- The label-word alternatives of `(ingredients?|contains?|noodles?|tastemaker|seasoning)\s*:`
expanded in the order the regex engine tries them. -/
def labelWords : List String :=
  ["ingredients", "ingredient", "contains", "contain", "noodles", "noodle",
   "tastemaker", "seasoning"]

/-- Matcher for `(ingredients?|contains?|noodles?|tastemaker|seasoning)\s*:`. -/
def labelColonMatcher (_ : Bool) (t : List Char) : Option Nat := do
  let w ← labelWords.find? (fun w => w.data.isPrefixOf t)
  let r1 := (t.drop w.data.length).dropWhile Char.isWhitespace
  match r1 with
  | ':' :: _ => some (consumedLen t r1 + 1)
  | _ => none

/-- Function `clean_ingredient_text` (source lines 119-157), step for step. -/
def clean_ingredient_text (raw_text : String) : String :=
  let t := strLower raw_text
  let t := applyRemovalPatterns t
  let t := E_NUMBER_MAP.foldl (fun s p => replaceWordAll p.1 p.2 s) t
  let t := INDIAN_INGREDIENT_MAP.foldl (fun s p => replaceWordAll p.1 p.2 s) t
  let t := runSub bracketMatcher "" t
  let t := runSub asRoleMatcher "" t
  let t := normalizeSeparators t
  let t := runSub enumMatcher "" t
  let t := runSub labelColonMatcher "," t
  t

/- ### extract_ingredients_list (source lines 159-188) -/

/-- The `skip_words` list (source lines 172-174). -/
def skip_words : List String :=
  ["ingredients", "contains", "allergen", "advice", "information",
   "may contain", "traces", "added permitted", "natural identical",
   "flavouring substances", "natural", "artificial"]

/-- ASCII alphanumeric, i.e. `[a-z0-9]` with `re.IGNORECASE`. -/
def isAsciiAlnum (c : Char) : Bool :=
  ('a' ≤ c && c ≤ 'z') || ('A' ≤ c && c ≤ 'Z') || ('0' ≤ c && c ≤ '9')

/-- Python `re.sub(r"^[^a-z0-9]+|[^a-z0-9]+$", "", ing, flags=re.IGNORECASE)`. -/
def stripEdgeSpecials (s : String) : String :=
  let l := s.data.dropWhile (fun c => ¬ isAsciiAlnum c)
  ⟨(l.reverse.dropWhile (fun c => ¬ isAsciiAlnum c)).reverse⟩

/-- Test that `re.search(r"[a-z]", ing, flags=re.IGNORECASE)` succeeds. -/
def hasAsciiLetter (s : String) : Bool :=
  s.data.any (fun c => ('a' ≤ c && c ≤ 'z') || ('A' ≤ c && c ≤ 'Z'))

/-- The per-piece filter body of `extract_ingredients_list`. -/
def keepIngredient (ing : String) : Option String :=
  if ing.data.length < 3 then none
  else if (skip_words.any (fun sk => pyIn sk (strLower ing))) && (pyWords ing).length < 3 then
    none
  else
    let ing2 := stripEdgeSpecials ing
    if hasAsciiLetter ing2 then some ing2 else none

/-- Function `extract_ingredients_list` (source lines 159-188). -/
def extract_ingredients_list (cleaned_text : String) : List String :=
  let raw := (((splitOnChar ',' cleaned_text.data).map (fun l => (⟨l⟩ : String))).map
    pyStrip).filter (fun s => s ≠ "")
  raw.filterMap keepIngredient

/- ### The analyzer and its catalog (source lines 74-114) -/

/-- Output of resolving one token: the result dict built by `find_best_match` /
`analyze_unknown_ingredient`. -/
structure IngredientResult where
  ingredient : String
  matched_as : String
  score : ℚ
  label : String
  remark : String
  category : String
  confidence : ℚ
  method : String
  deriving DecidableEq, Repr

/-- The `FoodAnalyzer` state after `__init__`: the dataset rows, plus the two
external similarity oracles, which are library code outside this repository
(`difflib.SequenceMatcher(...).ratio()`, and the sklearn block
`transform` / `cosine_similarity` / `argmax` — `none` models the caught
exception, `some (idx, score)` the argmax index with its score). -/
structure FoodAnalyzer where
  df : List ReferenceEntry
  simOracle : String → String → ℚ
  tfidfOracle : String → Option (Nat × ℚ)

/-- Column `Ingredient_LC = Food_Ingredient.lower().strip()` (source line 81). -/
def ingredientLC (e : ReferenceEntry) : String := pyStrip (strLower e.food_Ingredient)

/-- The filler words of `create_ingredient_variations`, in alternation order
(source line 111). -/
def fillerWords : List String :=
  ["powder", "extract", "natural", "artificial", "added", "permitted"]

/-- Matcher for `\b(powder|extract|natural|artificial|added|permitted)\b`. -/
def fillerMatcher (prevW : Bool) (t : List Char) : Option Nat :=
  if prevW then none
  else
    (fillerWords.find? (fun w =>
      w.data.isPrefixOf t &&
      (match t.drop w.data.length with
       | [] => true
       | d :: _ => !isWordChar d))).map (fun w => w.data.length)

/-- Python `re.sub(r"\b(powder|...)\b", "", ingredient).strip()` (source line 111). -/
def fillerStrip (ingredient : String) : String :=
  pyStrip (runSub fillerMatcher "" ingredient)

/-- One iteration of the `create_ingredient_variations` loop (source lines
104-114): register the exact lowercased name (unconditional dict assignment),
then the filler-stripped variant if it is non-empty, different, and not yet a
key. -/
def addEntry (m : List (String × Nat)) (idx : Nat) (e : ReferenceEntry) : List (String × Nat) :=
  let ing := ingredientLC e
  let m1 := dictInsert m ing idx
  let clean := fillerStrip ing
  if clean ≠ "" && clean ≠ ing && !(dictMem m1 clean) then dictInsert m1 clean idx else m1

/-- The `create_ingredient_variations` loop over `df.iterrows()`. -/
def buildMapAux (idx : Nat) : List ReferenceEntry → List (String × Nat) → List (String × Nat)
  | [], m => m
  | e :: rest, m => buildMapAux (idx + 1) rest (addEntry m idx e)

/-- Function `create_ingredient_variations` (source lines 100-114): the `ingredient_map`. -/
def create_ingredient_variations (df : List ReferenceEntry) : List (String × Nat) :=
  buildMapAux 0 df []

/-- Field `self.ingredient_map`. -/
def ingredientMap (A : FoodAnalyzer) : List (String × Nat) :=
  create_ingredient_variations A.df

/-- Row access `self.df.iloc[idx]` (total via a default; all indices used are in range). -/
def rowAt (A : FoodAnalyzer) (idx : Nat) : ReferenceEntry := A.df.getD idx defaultEntry

/- ### find_best_match (source lines 197-294) -/

/-- Function `calculate_similarity` (source lines 193-195). -/
def calculate_similarity (A : FoodAnalyzer) (str1 str2 : String) : ℚ :=
  A.simOracle (strLower str1) (strLower str2)

/-- Build the result dict shared by all four strategies. -/
def mkMatch (ingredient : String) (e : ReferenceEntry) (conf : ℚ) (meth : String) :
    IngredientResult :=
  ⟨ingredient, e.food_Ingredient, e.nutrition_Score, e.health_Label, e.remarks, e.category,
   conf, meth⟩

/-- Method 1: exact lookup in the variant index (source lines 202-215). -/
def exactStep (A : FoodAnalyzer) (ingredient ing_lc : String) : Option IngredientResult :=
  match dictGet (ingredientMap A) ing_lc with
  | some idx => some (mkMatch ingredient (rowAt A idx) 1 "exact_match")
  | none => none

/-- The fuzzy maximum loop (source lines 218-225): best score and the index of
the first key attaining it (strict-improvement updates). -/
def bestFuzzy (A : FoodAnalyzer) (ing_lc : String) : ℚ × Option Nat :=
  (ingredientMap A).foldl
    (fun b p =>
      let s := calculate_similarity A ing_lc p.1
      if s > b.1 then (s, some p.2) else b)
    (0, none)

/-- Method 2: fuzzy matching, threshold `FUZZY_MATCH_THRESHOLD = 0.80` (source
lines 217-238). The inner `none` case is unreachable: a best score `≥ 4/5 > 0`
can only arise from an update, which records an index. -/
def fuzzyStep (A : FoodAnalyzer) (ingredient ing_lc : String) : Option IngredientResult :=
  let b := bestFuzzy A ing_lc
  if 4/5 ≤ b.1 then
    match b.2 with
    | some idx =>
      some (mkMatch ingredient (rowAt A idx) b.1 ("fuzzy_match (" ++ fmt2 b.1 ++ ")"))
    | none => none
  else none

/-- Method 3: TF-IDF similarity, threshold `TFIDF_THRESHOLD = 0.50`, falling
through both below threshold and on the caught exception (source lines 240-260). -/
def tfidfStep (A : FoodAnalyzer) (ingredient ing_lc : String) : Option IngredientResult :=
  match A.tfidfOracle ing_lc with
  | some p =>
    if p.2 > 1/2 then
      some (mkMatch ingredient (rowAt A p.1) p.2 ("tfidf_match (" ++ fmt2 p.2 ++ ")"))
    else none
  | none => none

/-- Python `set(s.split())` as a duplicate-free list. -/
def wordSet (s : String) : List String := (pyWords s).dedup

/-- Quotient `overlap / total_words`: Jaccard similarity of two word sets (source lines
270-274). -/
def overlapScore (wi wdb : List String) : ℚ :=
  ((wi.filter (fun w => w ∈ wdb)).length : ℚ) /
    ((wi ++ wdb.filter (fun w => w ∉ wi)).length : ℚ)

/-- The partial word-overlap maximum loop (source lines 263-278). -/
def bestOverlap (A : FoodAnalyzer) (ing_lc : String) : ℚ × Option Nat :=
  let wi := wordSet ing_lc
  (ingredientMap A).foldl
    (fun b p =>
      let wdb := wordSet p.1
      if wi ≠ [] && wdb ≠ [] then
        let s := overlapScore wi wdb
        if s > b.1 then (s, some p.2) else b
      else b)
    (0, none)

/-- Method 4: partial word overlap, threshold 0.6 (source lines 262-291). -/
def overlapStep (A : FoodAnalyzer) (ingredient ing_lc : String) : Option IngredientResult :=
  let b := bestOverlap A ing_lc
  if 3/5 ≤ b.1 then
    match b.2 with
    | some idx =>
      some (mkMatch ingredient (rowAt A idx) b.1 ("partial_match (" ++ fmt2 b.1 ++ ")"))
    | none => none
  else none

/-- Function `find_best_match` (source lines 197-294): the four strategies in priority
order, each early-returning on success; `none` is the final "no match found". -/
def find_best_match (A : FoodAnalyzer) (ingredient : String) : Option IngredientResult :=
  let ing_lc := pyStrip (strLower ingredient)
  match exactStep A ingredient ing_lc with
  | some r => some r
  | none =>
    match fuzzyStep A ingredient ing_lc with
    | some r => some r
    | none =>
      match tfidfStep A ingredient ing_lc with
      | some r => some r
      | none => overlapStep A ingredient ing_lc

/- ### analyze_unknown_ingredient (source lines 299-403) -/

/-- Function `analyze_unknown_ingredient`: the ordered keyword-rule fallback for tokens
the database cascade could not match. Total by construction (always returns a
result dict). -/
def analyze_unknown_ingredient (ingredient : String) : IngredientResult :=
  let ing := strLower ingredient
  if ["trans fat", "partially hydrogenated", "hydrogenated oil"].any (fun x => pyIn x ing) then
    ⟨ingredient, "Not in Database", 1, "Avoid",
     "❌ Trans fats detected - Highly harmful to heart health", "Fats & Oils",
     4/5, "keyword_detection"⟩
  else if ["artificial color", "artificial colour", "tartrazine", "sunset yellow"].any
      (fun x => pyIn x ing) then
    ⟨ingredient, "Not in Database", 2, "Avoid",
     "⚠️ Artificial colorant - May cause allergic reactions", "Additives",
     3/4, "keyword_detection"⟩
  else if ["preservative", "benzoate", "sorbate", "sulfite", "nitrite", "nitrate"].any
      (fun x => pyIn x ing) then
    ⟨ingredient, "Not in Database", 3, "Caution",
     "⚠️ Chemical preservative - Consume in moderation", "Preservatives",
     7/10, "keyword_detection"⟩
  else if ["msg", "monosodium glutamate", "disodium", "flavor enhancer"].any
      (fun x => pyIn x ing) then
    ⟨ingredient, "Not in Database", 3, "Caution",
     "⚠️ Flavor enhancer - May cause sensitivity in some people", "Flavor Enhancers",
     7/10, "keyword_detection"⟩
  else if ["sugar", "syrup", "high fructose", "corn syrup"].any (fun x => pyIn x ing) then
    ⟨ingredient, "Not in Database", 7/2, "Caution",
     "🍬 High sugar content - Limit consumption", "Sweeteners",
     3/4, "keyword_detection"⟩
  else if ["vitamin", "mineral", "probiotic", "lactobacillus", "bifidobacterium"].any
      (fun x => pyIn x ing) then
    ⟨ingredient, "Not in Database", 8, "Healthy",
     "✅ Beneficial nutrient or probiotic", "Nutrients",
     4/5, "keyword_detection"⟩
  else if ["whole grain", "whole wheat", "oats", "quinoa", "brown rice"].any
      (fun x => pyIn x ing) then
    ⟨ingredient, "Not in Database", 17/2, "Healthy",
     "✅ Whole grain - Good source of fiber", "Grains",
     4/5, "keyword_detection"⟩
  else
    ⟨ingredient, "Not in Database", 5, "Unknown",
     "❓ Ingredient not found in database - Neutral impact assumed", "Unknown",
     0, "not_found"⟩

/- ### analyze_product (source lines 408-508) -/

/-- The `flags` sub-dict of the report. -/
structure Flags where
  has_harmful : Bool
  has_caution : Bool
  deriving DecidableEq, Repr

/-- The report dict returned by `analyze_product`. The degenerate branch omits
the matched/unmatched keys and carries an `error` key; `Option` fields model
key presence. -/
structure ProductReport where
  error : Option String
  product_name : String
  final_score : ℚ
  total_ingredients : Nat
  matched_ingredients : Option Nat
  unmatched_ingredients : Option Nat
  recommendation : String
  ingredients : List IngredientResult
  flags : Flags
  deriving DecidableEq, Repr

/-- Function `_generate_recommendation` (source lines 486-508); `match_rate` is computed
and never used, as in the source. -/
def generate_recommendation (score : ℚ) (has_avoid has_caution : Bool)
    (matched total : Nat) : String :=
  let matchRate : ℚ := if total > 0 then (matched : ℚ) / (total : ℚ) * 100 else 0
  let base :=
    if 8 ≤ score then "✅ Excellent Choice! This product is healthy and nutritious."
    else if 13/2 ≤ score then "👍 Good Choice! Generally safe but consume in moderation."
    else if 5 ≤ score then "⚠️ Moderate! Contains some ingredients to be cautious about."
    else if 3 ≤ score then "🚨 Poor Choice! Contains multiple harmful ingredients. Limit consumption."
    else "❌ Avoid! This product contains highly harmful ingredients."
  let _ := matchRate
  if has_avoid then base ++ " Contains harmful ingredients."
  else if has_caution then base ++ " Contains ingredients requiring caution."
  else base

/-- Mutable state of the per-ingredient loop in `analyze_product` (source lines
430-457). -/
structure LoopState where
  results : List IngredientResult
  matched : Nat
  unmatched : Nat
  total : ℚ
  found_avoid : Bool
  found_caution : Bool
  deriving Repr

/-- Loop-state before the first iteration. -/
def initState : LoopState := ⟨[], 0, 0, 0, false, false⟩

/-- The bookkeeping tail of one loop iteration: append the result, bump the
matched/unmatched counter, accumulate the score, and update the flags (note the
`elif`: a result whose label contains `avoid` never sets `found_caution`). -/
def trackResult (s : LoopState) (r : IngredientResult) (isMatch : Bool) : LoopState :=
  { results := s.results ++ [r]
    matched := if isMatch then s.matched + 1 else s.matched
    unmatched := if isMatch then s.unmatched else s.unmatched + 1
    total := s.total + r.score
    found_avoid := s.found_avoid || pyIn "avoid" (strLower r.label)
    found_caution :=
      if pyIn "avoid" (strLower r.label) then s.found_caution
      else s.found_caution || pyIn "caution" (strLower r.label) }

/-- One iteration of the loop: database cascade first, classifier fallback. -/
def analyzeStep (A : FoodAnalyzer) (s : LoopState) (ing : String) : LoopState :=
  match find_best_match A ing with
  | some r => trackResult s r true
  | none => trackResult s (analyze_unknown_ingredient ing) false

/-- The result the loop stores for one token (cascade, else classifier). -/
def resolveToken (A : FoodAnalyzer) (ing : String) : IngredientResult :=
  match find_best_match A ing with
  | some r => r
  | none => analyze_unknown_ingredient ing

/-- Function `analyze_product` (source lines 408-481). -/
def analyze_product (A : FoodAnalyzer) (raw_text : String)
    (product_name : String) : ProductReport :=
  let cleaned := clean_ingredient_text raw_text
  let toks := extract_ingredients_list cleaned
  if toks = [] then
    { error := some "No ingredients found in text"
      product_name := product_name
      final_score := 0
      total_ingredients := 0
      matched_ingredients := none
      unmatched_ingredients := none
      recommendation := "Unable to analyze - No ingredients detected"
      ingredients := []
      flags := ⟨false, false⟩ }
  else
    let st := toks.foldl (analyzeStep A) initState
    let final := round2 (if st.results = [] then 5 else st.total / (st.results.length : ℚ))
    { error := none
      product_name := product_name
      final_score := final
      total_ingredients := st.results.length
      matched_ingredients := some st.matched
      unmatched_ingredients := some st.unmatched
      recommendation :=
        generate_recommendation final st.found_avoid st.found_caution st.matched
          st.results.length
      ingredients := st.results
      flags := ⟨st.found_avoid, st.found_caution⟩ }

/- ### Derived notions and concrete instances used in the theorems below -/

/-- The cleaned token list `analyze_product` computes for a raw text. -/
def tokensOf (raw_text : String) : List String :=
  extract_ingredients_list (clean_ingredient_text raw_text)

/-- A small concrete catalog used to instantiate the theorems. -/
def dfW : List ReferenceEntry :=
  [⟨"Apple", 9, "Healthy", "Fresh fruit", "Fruits"⟩,
   ⟨"Palm Oil", 3, "Avoid", "High in saturated fat", "Fats & Oils"⟩,
   ⟨"Salt", 4, "Caution", "Limit intake", "Minerals"⟩]

/-- Concrete analyzer whose oracles never fire: fuzzy similarity constantly 0,
TF-IDF raising (the caught exception). -/
def analyzerW : FoodAnalyzer := ⟨dfW, fun _ _ => 0, fun _ => none⟩

/-- Concrete analyzer in the spec's priority scenario: every fuzzy ratio is
0.85 (clears the 0.80 threshold) and TF-IDF reports cosine similarity 0.90
(clears the 0.50 threshold). -/
def analyzerF : FoodAnalyzer := ⟨dfW, fun _ _ => 17/20, fun _ => some (0, 9/10)⟩

/-- Two-row catalog for the variant-index collision analysis: the second
entry's exact name equals the first entry's filler-stripped variant. -/
def dfC7 : List ReferenceEntry :=
  [⟨"Sugar Powder", 4, "Caution", "Refined sugar", "Sweeteners"⟩,
   ⟨"Sugar", 3, "Caution", "Refined sugar", "Sweeteners"⟩]

/-- Index (counting from `base`) of the last entry satisfying `p`. -/
def lastIdxFrom (p : ReferenceEntry → Bool) (base : Nat) : List ReferenceEntry → Option Nat
  | [] => none
  | e :: rest =>
    match lastIdxFrom p (base + 1) rest with
    | some i => some i
    | none => if p e then some base else none

/-- Index (counting from `base`) of the first entry satisfying `p`. -/
def firstIdxFrom (p : ReferenceEntry → Bool) (base : Nat) : List ReferenceEntry → Option Nat
  | [] => none
  | e :: rest => if p e then some base else firstIdxFrom p (base + 1) rest

/-- The filler-stripped variant an entry offers for registration, when it is
non-empty and differs from the exact lowercased name. -/
def variantKey (e : ReferenceEntry) : Option String :=
  let ing := ingredientLC e
  let c := fillerStrip ing
  if c ≠ "" && c ≠ ing then some c else none

/-- Observable description of the constructed variant index (the amended claim
C7): a key that is some entry's exact lowercased-and-trimmed name resolves to
the last such entry (exact-name assignment overwrites unconditionally); any
other key resolves to the first entry whose filler-stripped variant it is. -/
def variantIndexSpec (df : List ReferenceEntry) (k : String) : Option Nat :=
  match lastIdxFrom (fun e => ingredientLC e = k) 0 df with
  | some i => some i
  | none => firstIdxFrom (fun e => variantKey e = some k) 0 df

/- ### Helper lemmas: the dictionary -/

theorem dictGet_insert (m : List (String × Nat)) (k : String) (v : Nat) (q : String) :
    dictGet (dictInsert m k v) q = if k = q then some v else dictGet m q := by
  induction m with
  | nil => simp [dictInsert, dictGet]
  | cons p m ih =>
    by_cases hpk : p.1 = k
    · rw [show dictInsert (p :: m) k v = (k, v) :: m by simp [dictInsert, hpk]]
      by_cases hkq : k = q
      · simp [dictGet, hkq]
      · have hpq : ¬ p.1 = q := fun h => hkq (hpk ▸ h)
        simp [dictGet, hkq, hpq]
    · rw [show dictInsert (p :: m) k v = p :: dictInsert m k v by simp [dictInsert, hpk]]
      by_cases hpq : p.1 = q
      · have hkq : ¬ k = q := fun h => hpk (h ▸ hpq)
        simp [dictGet, hpq, hkq]
      · simp [dictGet, hpq, ih]

/- ### Helper lemmas: the analysis loop -/

theorem analyzeStep_eq (A : FoodAnalyzer) (s : LoopState) (ing : String) :
    analyzeStep A s ing =
      trackResult s (resolveToken A ing) ((find_best_match A ing).isSome) := by
  cases h : find_best_match A ing <;> simp [analyzeStep, resolveToken, h]

theorem loop_results_aux (A : FoodAnalyzer) (toks : List String) (s : LoopState) :
    (toks.foldl (analyzeStep A) s).results = s.results ++ toks.map (resolveToken A) := by
  induction toks generalizing s with
  | nil => simp
  | cons t rest ih => simp [analyzeStep_eq, ih, trackResult]

theorem loop_total_aux (A : FoodAnalyzer) (toks : List String) (s : LoopState) :
    (toks.foldl (analyzeStep A) s).total =
      s.total + ((toks.map (resolveToken A)).map (fun r => r.score)).sum := by
  induction toks generalizing s with
  | nil => simp
  | cons t rest ih => simp [analyzeStep_eq, ih, trackResult]; ring

theorem loop_matched_aux (A : FoodAnalyzer) (toks : List String) (s : LoopState) :
    (toks.foldl (analyzeStep A) s).matched =
      s.matched + toks.countP (fun t => (find_best_match A t).isSome) := by
  induction toks generalizing s with
  | nil => simp
  | cons t rest ih =>
    cases h : find_best_match A t with
    | some r =>
      simp [analyzeStep, h, ih, trackResult, List.countP_cons]
      omega
    | none =>
      simp [analyzeStep, h, ih, trackResult, List.countP_cons]

theorem loop_unmatched_aux (A : FoodAnalyzer) (toks : List String) (s : LoopState) :
    (toks.foldl (analyzeStep A) s).unmatched =
      s.unmatched + toks.countP (fun t => (find_best_match A t).isNone) := by
  induction toks generalizing s with
  | nil => simp
  | cons t rest ih =>
    cases h : find_best_match A t with
    | some r =>
      simp [analyzeStep, h, ih, trackResult, List.countP_cons]
    | none =>
      simp [analyzeStep, h, ih, trackResult, List.countP_cons]
      omega

theorem loop_avoid_aux (A : FoodAnalyzer) (toks : List String) (s : LoopState) :
    (toks.foldl (analyzeStep A) s).found_avoid =
      (s.found_avoid ||
        (toks.map (resolveToken A)).any (fun r => pyIn "avoid" (strLower r.label))) := by
  induction toks generalizing s with
  | nil => simp
  | cons t rest ih => simp [analyzeStep_eq, ih, trackResult, Bool.or_assoc]

theorem loop_caution_aux (A : FoodAnalyzer) (toks : List String) (s : LoopState) :
    (toks.foldl (analyzeStep A) s).found_caution =
      (s.found_caution ||
        (toks.map (resolveToken A)).any
          (fun r => !(pyIn "avoid" (strLower r.label)) && pyIn "caution" (strLower r.label))) := by
  induction toks generalizing s with
  | nil => simp
  | cons t rest ih =>
    cases h : pyIn "avoid" (strLower (resolveToken A t).label) <;>
      simp [analyzeStep_eq, ih, trackResult, h, Bool.or_assoc]

/- ### Helper lemmas: the two branches of analyze_product -/

theorem analyze_product_empty (A : FoodAnalyzer) (raw name : String)
    (h : tokensOf raw = []) :
    analyze_product A raw name =
      ⟨some "No ingredients found in text", name, 0, 0, none, none,
       "Unable to analyze - No ingredients detected", [], ⟨false, false⟩⟩ := by
  unfold analyze_product
  rw [if_pos (by exact h)]

theorem analyze_product_pos (A : FoodAnalyzer) (raw name : String)
    (h : ¬ tokensOf raw = []) :
    analyze_product A raw name =
      (let st := (tokensOf raw).foldl (analyzeStep A) initState
       ⟨none, name,
        round2 (if st.results = [] then 5 else st.total / (st.results.length : ℚ)),
        st.results.length, some st.matched, some st.unmatched,
        generate_recommendation
          (round2 (if st.results = [] then 5 else st.total / (st.results.length : ℚ)))
          st.found_avoid st.found_caution st.matched st.results.length,
        st.results, ⟨st.found_avoid, st.found_caution⟩⟩) := by
  unfold analyze_product
  rw [if_neg (by exact h)]
  rfl

theorem loop_results (A : FoodAnalyzer) (toks : List String) :
    (toks.foldl (analyzeStep A) initState).results = toks.map (resolveToken A) := by
  rw [loop_results_aux]; rfl

theorem loop_total (A : FoodAnalyzer) (toks : List String) :
    (toks.foldl (analyzeStep A) initState).total =
      ((toks.map (resolveToken A)).map (fun r => r.score)).sum := by
  rw [loop_total_aux]
  show (0 : ℚ) + _ = _
  rw [zero_add]

/- ### Helper lemmas: provenance of result fields -/

theorem exactStep_shape (A : FoodAnalyzer) (i l : String) (r : IngredientResult)
    (h : exactStep A i l = some r) :
    ∃ idx conf meth, r = mkMatch i (rowAt A idx) conf meth := by
  simp only [exactStep] at h
  split at h
  · exact ⟨_, 1, "exact_match", by injection h with h2; exact h2.symm⟩
  · exact absurd h (by simp)

theorem fuzzyStep_shape (A : FoodAnalyzer) (i l : String) (r : IngredientResult)
    (h : fuzzyStep A i l = some r) :
    ∃ idx conf meth, r = mkMatch i (rowAt A idx) conf meth := by
  simp only [fuzzyStep] at h
  split at h
  · split at h
    · exact ⟨_, _, _, by injection h with h2; exact h2.symm⟩
    · exact absurd h (by simp)
  · exact absurd h (by simp)

theorem tfidfStep_shape (A : FoodAnalyzer) (i l : String) (r : IngredientResult)
    (h : tfidfStep A i l = some r) :
    ∃ idx conf meth, r = mkMatch i (rowAt A idx) conf meth := by
  simp only [tfidfStep] at h
  split at h
  · split at h
    · exact ⟨_, _, _, by injection h with h2; exact h2.symm⟩
    · exact absurd h (by simp)
  · exact absurd h (by simp)

theorem overlapStep_shape (A : FoodAnalyzer) (i l : String) (r : IngredientResult)
    (h : overlapStep A i l = some r) :
    ∃ idx conf meth, r = mkMatch i (rowAt A idx) conf meth := by
  simp only [overlapStep] at h
  split at h
  · split at h
    · exact ⟨_, _, _, by injection h with h2; exact h2.symm⟩
    · exact absurd h (by simp)
  · exact absurd h (by simp)

theorem find_best_match_shape (A : FoodAnalyzer) (tok : String) (r : IngredientResult)
    (h : find_best_match A tok = some r) :
    ∃ idx conf meth, r = mkMatch tok (rowAt A idx) conf meth := by
  simp only [find_best_match] at h
  split at h
  next r1 h1 =>
    have h2 : r1 = r := by injection h
    exact h2 ▸ exactStep_shape A _ _ _ h1
  next h1 =>
    split at h
    next r2 h2 =>
      have h3 : r2 = r := by injection h
      exact h3 ▸ fuzzyStep_shape A _ _ _ h2
    next h2 =>
      split at h
      next r3 h3 =>
        have h4 : r3 = r := by injection h
        exact h4 ▸ tfidfStep_shape A _ _ _ h3
      next h3 => exact overlapStep_shape A _ _ _ h

/- ### Helper lemmas: catalog rows, classifier facts, numeric bounds -/

theorem getD_mem_or (l : List ReferenceEntry) (n : Nat) (d : ReferenceEntry) :
    l.getD n d ∈ l ∨ l.getD n d = d := by
  induction l generalizing n with
  | nil => right; simp
  | cons e l ih =>
    cases n with
    | zero => left; simp
    | succ n =>
      rw [List.getD_cons_succ]
      rcases ih n with h | h
      · left; exact List.mem_cons_of_mem e h
      · right; exact h

theorem classifier_score_bounds (t : String) :
    0 ≤ (analyze_unknown_ingredient t).score ∧ (analyze_unknown_ingredient t).score ≤ 10 := by
  simp only [analyze_unknown_ingredient]
  split_ifs <;> norm_num

theorem classifier_label_mem (t : String) :
    (analyze_unknown_ingredient t).label ∈
      (["Avoid", "Caution", "Healthy", "Unknown"] : List String) := by
  simp only [analyze_unknown_ingredient]
  split_ifs <;> simp

theorem classifier_conf_method (t : String) :
    (analyze_unknown_ingredient t).confidence ≠ 1 ∧
      (((analyze_unknown_ingredient t).confidence = 0 ∧
          (analyze_unknown_ingredient t).method = "not_found") ∨
        (7/10 ≤ (analyze_unknown_ingredient t).confidence ∧
          (analyze_unknown_ingredient t).confidence ≤ 4/5 ∧
          (analyze_unknown_ingredient t).method = "keyword_detection")) := by
  simp only [analyze_unknown_ingredient]
  split_ifs
  all_goals first
    | exact ⟨by norm_num, Or.inl ⟨rfl, rfl⟩⟩
    | exact ⟨by norm_num, Or.inr ⟨by norm_num, by norm_num, rfl⟩⟩

theorem roundHalfEven_bounds (q : ℚ) (h0 : 0 ≤ q) (h1 : q ≤ 1000) :
    0 ≤ roundHalfEven q ∧ roundHalfEven q ≤ 1000 := by
  have hf0 : (0 : ℤ) ≤ ⌊q⌋ := Int.floor_nonneg.mpr h0
  have hf1 : ⌊q⌋ ≤ 1000 := by
    have h2 : ⌊q⌋ ≤ ⌊(1000 : ℚ)⌋ := Int.floor_le_floor h1
    simpa using h2
  unfold roundHalfEven
  split
  next => exact ⟨hf0, hf1⟩
  next hlt =>
    have hge : 1/2 ≤ q - ⌊q⌋ := le_of_not_lt hlt
    have hfq : (⌊q⌋ : ℚ) ≤ q := Int.floor_le q
    have hflt : (⌊q⌋ : ℚ) < 1000 := by linarith
    have hlt1000 : ⌊q⌋ < 1000 := by exact_mod_cast hflt
    split
    next => constructor <;> omega
    next => split <;> constructor <;> omega

theorem round2_bounds (q : ℚ) (h0 : 0 ≤ q) (h1 : q ≤ 10) :
    0 ≤ round2 q ∧ round2 q ≤ 10 := by
  have h := roundHalfEven_bounds (q * 100) (by positivity) (by linarith)
  unfold round2
  constructor
  · apply div_nonneg _ (by norm_num)
    exact_mod_cast h.1
  · rw [div_le_iff₀ (by norm_num : (0:ℚ) < 100)]
    have h2 : ((roundHalfEven (q * 100) : ℤ) : ℚ) ≤ 1000 := by exact_mod_cast h.2
    linarith

theorem sum_le_ten_mul (l : List ℚ) (hb : ∀ x ∈ l, x ≤ 10) :
    l.sum ≤ 10 * l.length := by
  induction l with
  | nil => simp
  | cons a l ih =>
    have ha := hb a (by simp)
    have hrec := ih (fun x hx => hb x (by simp [hx]))
    simp only [List.sum_cons, List.length_cons]
    push_cast
    linarith

theorem mean_bounds (l : List ℚ) (hl : l ≠ []) (hb : ∀ x ∈ l, 0 ≤ x ∧ x ≤ 10) :
    0 ≤ l.sum / (l.length : ℚ) ∧ l.sum / (l.length : ℚ) ≤ 10 := by
  have hlen : (0:ℚ) < (l.length : ℚ) := by
    have h2 : 0 < l.length := List.length_pos.mpr hl
    exact_mod_cast h2
  have hsum0 : 0 ≤ l.sum := List.sum_nonneg (fun x hx => (hb x hx).1)
  have hsum1 : l.sum ≤ 10 * l.length := sum_le_ten_mul l (fun x hx => (hb x hx).2)
  constructor
  · exact div_nonneg hsum0 (le_of_lt hlen)
  · rw [div_le_iff₀ hlen]
    linarith

theorem fuzzyFold_invariant (A : FoodAnalyzer) (l : String) (m : List (String × Nat))
    (b : ℚ × Option Nat) (hb : 0 < b.1 → b.2.isSome)
    (h : 0 < (m.foldl (fun b p =>
      let s := calculate_similarity A l p.1
      if s > b.1 then (s, some p.2) else b) b).1) :
    (m.foldl (fun b p =>
      let s := calculate_similarity A l p.1
      if s > b.1 then (s, some p.2) else b) b).2.isSome := by
  induction m generalizing b with
  | nil => exact hb h
  | cons p m ih =>
    simp only [List.foldl_cons] at h ⊢
    refine ih _ ?_ h
    intro h1
    by_cases hc : calculate_similarity A l p.1 > b.1
    · simp [hc]
    · simp only [hc, if_false] at h1 ⊢
      exact hb h1

theorem bestFuzzy_pos_isSome (A : FoodAnalyzer) (l : String)
    (h : 0 < (bestFuzzy A l).1) : (bestFuzzy A l).2.isSome := by
  unfold bestFuzzy at h ⊢
  refine fuzzyFold_invariant A l _ _ ?_ h
  intro h1
  norm_num at h1

theorem rowAt_cases (A : FoodAnalyzer) (idx : Nat) :
    rowAt A idx ∈ A.df ∨ rowAt A idx = defaultEntry := getD_mem_or A.df idx defaultEntry

theorem resolveToken_score_bounds (A : FoodAnalyzer) (t : String)
    (hdf : ∀ e ∈ A.df, 0 ≤ e.nutrition_Score ∧ e.nutrition_Score ≤ 10) :
    0 ≤ (resolveToken A t).score ∧ (resolveToken A t).score ≤ 10 := by
  unfold resolveToken
  cases h : find_best_match A t with
  | none => exact classifier_score_bounds t
  | some r =>
    obtain ⟨idx, conf, meth, rfl⟩ := find_best_match_shape A t r h
    rcases rowAt_cases A idx with hm | hm
    · exact hdf _ hm
    · show 0 ≤ (rowAt A idx).nutrition_Score ∧ (rowAt A idx).nutrition_Score ≤ 10
      rw [hm]
      norm_num [defaultEntry]

theorem resolveToken_not_both (A : FoodAnalyzer) (t : String)
    (hlab : ∀ e ∈ A.df, pyIn "avoid" (strLower e.health_Label) = false ∨
        pyIn "caution" (strLower e.health_Label) = false) :
    pyIn "avoid" (strLower (resolveToken A t).label) = false ∨
      pyIn "caution" (strLower (resolveToken A t).label) = false := by
  unfold resolveToken
  cases h : find_best_match A t with
  | none =>
    have hm := classifier_label_mem t
    simp only [List.mem_cons, List.not_mem_nil, or_false] at hm
    rcases hm with h1 | h1 | h1 | h1 <;> simp only [h1] <;> decide
  | some r =>
    obtain ⟨idx, conf, meth, rfl⟩ := find_best_match_shape A t r h
    show pyIn "avoid" (strLower (rowAt A idx).health_Label) = false ∨
      pyIn "caution" (strLower (rowAt A idx).health_Label) = false
    rcases rowAt_cases A idx with hm | hm
    · exact hlab _ hm
    · rw [hm]; left; decide

theorem countP_isSome_isNone (A : FoodAnalyzer) (toks : List String) :
    toks.countP (fun t => (find_best_match A t).isSome) +
      toks.countP (fun t => (find_best_match A t).isNone) = toks.length := by
  induction toks with
  | nil => simp
  | cons t rest ih =>
    cases h : find_best_match A t <;> simp [List.countP_cons, h] <;> omega

/- ### Claim theorems -/

/-- Claim C2: for every non-empty resolved ingredient list, `analyze_product`
computes `final_score` as the flat arithmetic mean of all per-ingredient scores
rounded to 2 decimal places — no weighting by label or confidence, no penalty
multipliers afterwards. -/
theorem c2_flat_mean (A : FoodAnalyzer) (raw name : String)
    (h : (analyze_product A raw name).ingredients ≠ []) :
    (analyze_product A raw name).final_score =
      round2 ((((analyze_product A raw name).ingredients).map (fun r => r.score)).sum /
        (((analyze_product A raw name).ingredients).length : ℚ)) := by
  by_cases ht : tokensOf raw = []
  · rw [analyze_product_empty A raw name ht] at h
    exact absurd rfl h
  · rw [analyze_product_pos A raw name ht] at h ⊢
    dsimp only at h ⊢
    rw [loop_results] at h ⊢
    rw [loop_total, if_neg h]

/-- Claim C2 witness: concrete instance with one catalog hit and one classifier
fallback. -/
theorem c2_flat_mean_witness :
    (analyze_product analyzerW "Apple, zzz" "P").ingredients ≠ [] ∧
      (analyze_product analyzerW "Apple, zzz" "P").final_score =
        round2 ((((analyze_product analyzerW "Apple, zzz" "P").ingredients).map
            (fun r => r.score)).sum /
          (((analyze_product analyzerW "Apple, zzz" "P").ingredients).length : ℚ)) :=
  ⟨by decide, c2_flat_mean analyzerW "Apple, zzz" "P" (by decide)⟩

/-- Claim C3: when every catalog score lies in [0, 10], the final score of any
non-empty analysis lies in [0, 10]. -/
theorem c3_final_score_range (A : FoodAnalyzer) (raw name : String)
    (hdf : ∀ e ∈ A.df, 0 ≤ e.nutrition_Score ∧ e.nutrition_Score ≤ 10)
    (ht : tokensOf raw ≠ []) :
    0 ≤ (analyze_product A raw name).final_score ∧
      (analyze_product A raw name).final_score ≤ 10 := by
  rw [analyze_product_pos A raw name ht]
  dsimp only
  rw [loop_results, loop_total]
  have hne : (tokensOf raw).map (resolveToken A) ≠ [] := by
    simpa using ht
  rw [if_neg hne]
  have hmb := mean_bounds (((tokensOf raw).map (resolveToken A)).map (fun r => r.score))
    (by simpa using hne)
    (by
      intro x hx
      obtain ⟨r, hr, rfl⟩ := List.mem_map.mp hx
      obtain ⟨t, hts, rfl⟩ := List.mem_map.mp hr
      exact resolveToken_score_bounds A t hdf)
  rw [List.length_map] at hmb
  exact round2_bounds _ hmb.1 hmb.2

/-- Claim C3 witness. -/
theorem c3_final_score_range_witness :
    (∀ e ∈ analyzerW.df, 0 ≤ e.nutrition_Score ∧ e.nutrition_Score ≤ 10) ∧
      tokensOf "Apple, zzz" ≠ [] ∧
      (0 ≤ (analyze_product analyzerW "Apple, zzz" "P").final_score ∧
        (analyze_product analyzerW "Apple, zzz" "P").final_score ≤ 10) :=
  ⟨by decide, by decide, c3_final_score_range analyzerW "Apple, zzz" "P" (by decide) (by decide)⟩

/-- Claim C10: for every non-empty token list the matched and unmatched counts
partition the ingredient results: matched counts the cascade hits, unmatched the
classifier fallbacks, and they sum to the total, which is the result-list
length. -/
theorem c10_count_invariant (A : FoodAnalyzer) (raw name : String)
    (ht : tokensOf raw ≠ []) :
    (analyze_product A raw name).matched_ingredients =
        some ((tokensOf raw).countP (fun t => (find_best_match A t).isSome)) ∧
      (analyze_product A raw name).unmatched_ingredients =
        some ((tokensOf raw).countP (fun t => (find_best_match A t).isNone)) ∧
      (tokensOf raw).countP (fun t => (find_best_match A t).isSome) +
          (tokensOf raw).countP (fun t => (find_best_match A t).isNone) =
        (analyze_product A raw name).total_ingredients ∧
      (analyze_product A raw name).total_ingredients =
        (analyze_product A raw name).ingredients.length := by
  rw [analyze_product_pos A raw name ht]
  dsimp only
  refine ⟨?_, ?_, ?_, rfl⟩
  · rw [loop_matched_aux]; simp [initState]
  · rw [loop_unmatched_aux]; simp [initState]
  · rw [loop_results, List.length_map]
    exact countP_isSome_isNone A _

/-- Claim C10 witness. -/
theorem c10_count_invariant_witness :
    tokensOf "Apple, zzz" ≠ [] ∧
      ((analyze_product analyzerW "Apple, zzz" "P").matched_ingredients =
          some ((tokensOf "Apple, zzz").countP
            (fun t => (find_best_match analyzerW t).isSome)) ∧
        (analyze_product analyzerW "Apple, zzz" "P").unmatched_ingredients =
          some ((tokensOf "Apple, zzz").countP
            (fun t => (find_best_match analyzerW t).isNone)) ∧
        (tokensOf "Apple, zzz").countP (fun t => (find_best_match analyzerW t).isSome) +
            (tokensOf "Apple, zzz").countP (fun t => (find_best_match analyzerW t).isNone) =
          (analyze_product analyzerW "Apple, zzz" "P").total_ingredients ∧
        (analyze_product analyzerW "Apple, zzz" "P").total_ingredients =
          (analyze_product analyzerW "Apple, zzz" "P").ingredients.length) :=
  ⟨by decide, c10_count_invariant analyzerW "Apple, zzz" "P" (by decide)⟩

/-- Claim C6: `has_harmful` holds iff some result's label contains `avoid`
(case-insensitively), and — provided no single label carries both marker words,
as with the fixed label vocabulary — `has_caution` holds iff some result's label
contains `caution`; the flags are independent and can hold simultaneously. -/
theorem c6_flags_iff (A : FoodAnalyzer) (raw name : String)
    (hlab : ∀ e ∈ A.df, pyIn "avoid" (strLower e.health_Label) = false ∨
        pyIn "caution" (strLower e.health_Label) = false) :
    ((analyze_product A raw name).flags.has_harmful = true ↔
        ∃ r ∈ (analyze_product A raw name).ingredients,
          pyIn "avoid" (strLower r.label) = true) ∧
      ((analyze_product A raw name).flags.has_caution = true ↔
        ∃ r ∈ (analyze_product A raw name).ingredients,
          pyIn "caution" (strLower r.label) = true) := by
  by_cases ht : tokensOf raw = []
  · rw [analyze_product_empty A raw name ht]
    simp
  · rw [analyze_product_pos A raw name ht]
    dsimp only
    rw [loop_avoid_aux, loop_caution_aux, loop_results]
    constructor
    · simp [initState, List.any_eq_true]
    · constructor
      · intro hc
        simp only [initState, Bool.false_or] at hc
        obtain ⟨r, hr, hp⟩ := List.any_eq_true.mp hc
        rw [Bool.and_eq_true] at hp
        exact ⟨r, hr, hp.2⟩
      · rintro ⟨r, hr, hc⟩
        simp only [initState, Bool.false_or]
        obtain ⟨t, hts, rfl⟩ := List.mem_map.mp hr
        rcases resolveToken_not_both A t hlab with hna | hnc
        · refine List.any_eq_true.mpr ⟨resolveToken A t, List.mem_map.mpr ⟨t, hts, rfl⟩, ?_⟩
          rw [hna, hc]
          rfl
        · rw [hnc] at hc
          exact absurd hc (by simp)

/-- Claim C6 witness: a product containing both an Avoid-labelled and a
Caution-labelled ingredient (both flags end up true). -/
theorem c6_flags_iff_witness :
    (∀ e ∈ analyzerW.df, pyIn "avoid" (strLower e.health_Label) = false ∨
        pyIn "caution" (strLower e.health_Label) = false) ∧
      (((analyze_product analyzerW "Palm Oil, Salt" "P").flags.has_harmful = true ↔
          ∃ r ∈ (analyze_product analyzerW "Palm Oil, Salt" "P").ingredients,
            pyIn "avoid" (strLower r.label) = true) ∧
        ((analyze_product analyzerW "Palm Oil, Salt" "P").flags.has_caution = true ↔
          ∃ r ∈ (analyze_product analyzerW "Palm Oil, Salt" "P").ingredients,
            pyIn "caution" (strLower r.label) = true)) :=
  ⟨by decide, c6_flags_iff analyzerW "Palm Oil, Salt" "P" (by decide)⟩

/-- Claim C4 counterexample: at the concrete empty input the degenerate report
has NO matched/unmatched count fields (rather than zero ones), its
recommendation is "Unable to analyze - No ingredients detected" (hyphen,
capital "No") rather than the claimed "Unable to analyze — no ingredients
detected", and it carries an error field. -/
theorem c4_counterexample :
    (analyze_product analyzerW "" "P").matched_ingredients = none ∧
      (analyze_product analyzerW "" "P").matched_ingredients ≠ some 0 ∧
      (analyze_product analyzerW "" "P").unmatched_ingredients ≠ some 0 ∧
      (analyze_product analyzerW "" "P").recommendation ≠
        "Unable to analyze — no ingredients detected" ∧
      (analyze_product analyzerW "" "P").error ≠ none := by decide

/-- Claim C4 amended: on any input whose cleaned token list is empty,
`analyze_product` returns normally (no exception) with the degenerate report:
final_score 0, recommendation "Unable to analyze - No ingredients detected",
total count 0, empty result list, both flags false, an error field
"No ingredients found in text", and the matched/unmatched count fields omitted
rather than zero. -/
theorem c4_degenerate_report (A : FoodAnalyzer) (raw name : String)
    (h : tokensOf raw = []) :
    analyze_product A raw name =
      ⟨some "No ingredients found in text", name, 0, 0, none, none,
       "Unable to analyze - No ingredients detected", [], ⟨false, false⟩⟩ :=
  analyze_product_empty A raw name h

/-- Claim C4 witness: the whitespace-only input yields an empty token list and
the degenerate report. -/
theorem c4_degenerate_report_witness :
    tokensOf "   " = [] ∧
      analyze_product analyzerW "   " "P" =
        ⟨some "No ingredients found in text", "P", 0, 0, none, none,
         "Unable to analyze - No ingredients detected", [], ⟨false, false⟩⟩ :=
  ⟨by decide, c4_degenerate_report analyzerW "   " "P" (by decide)⟩

/-- Claim C5: an exact variant-index hit yields confidence exactly 1 and method
`exact_match`; the unknown-ingredient classifier is total (never returns
NOT_FOUND, by its type), never yields confidence 1, and its confidence is 0
with method `not_found` in the default case and in [0.7, 0.8] with method
`keyword_detection` for every keyword rule. -/
theorem c5_confidence_methods (A : FoodAnalyzer) (tok tok2 : String) (idx : Nat)
    (h : dictGet (ingredientMap A) (pyStrip (strLower tok)) = some idx) :
    (find_best_match A tok =
        some (mkMatch tok (rowAt A idx) 1 "exact_match") ∧
      (∀ r, find_best_match A tok = some r →
        r.confidence = 1 ∧ r.method = "exact_match")) ∧
      ((analyze_unknown_ingredient tok2).confidence ≠ 1 ∧
        (((analyze_unknown_ingredient tok2).confidence = 0 ∧
            (analyze_unknown_ingredient tok2).method = "not_found") ∨
          (7/10 ≤ (analyze_unknown_ingredient tok2).confidence ∧
            (analyze_unknown_ingredient tok2).confidence ≤ 4/5 ∧
            (analyze_unknown_ingredient tok2).method = "keyword_detection"))) := by
  have hfind : find_best_match A tok = some (mkMatch tok (rowAt A idx) 1 "exact_match") := by
    simp only [find_best_match, exactStep, h]
  refine ⟨⟨hfind, ?_⟩, classifier_conf_method tok2⟩
  intro r hr
  rw [hfind] at hr
  injection hr with hr2
  rw [← hr2]
  exact ⟨rfl, rfl⟩

/-- Claim C5 witness: "apple" is an exact hit in the concrete catalog. -/
theorem c5_confidence_methods_witness :
    dictGet (ingredientMap analyzerW) (pyStrip (strLower "Apple")) = some 0 ∧
      ((find_best_match analyzerW "Apple" =
          some (mkMatch "Apple" (rowAt analyzerW 0) 1 "exact_match") ∧
        (∀ r, find_best_match analyzerW "Apple" = some r →
          r.confidence = 1 ∧ r.method = "exact_match")) ∧
        ((analyze_unknown_ingredient "zz").confidence ≠ 1 ∧
          (((analyze_unknown_ingredient "zz").confidence = 0 ∧
              (analyze_unknown_ingredient "zz").method = "not_found") ∨
            (7/10 ≤ (analyze_unknown_ingredient "zz").confidence ∧
              (analyze_unknown_ingredient "zz").confidence ≤ 4/5 ∧
              (analyze_unknown_ingredient "zz").method = "keyword_detection")))) :=
  ⟨by decide, c5_confidence_methods analyzerW "Apple" "zz" 0 (by decide)⟩

/-- Claim C1: when the exact index misses and both the fuzzy ratio clears 0.80
and the TF-IDF cosine clears 0.50, `find_best_match` returns the fuzzy
strategy's result: the fuzzy-matched row with confidence equal to the fuzzy
ratio itself (no blending with the vector score) and a fuzzy_match method tag. -/
theorem c1_fuzzy_priority (A : FoodAnalyzer) (tok : String)
    (hE : dictGet (ingredientMap A) (pyStrip (strLower tok)) = none)
    (hF : 4/5 ≤ (bestFuzzy A (pyStrip (strLower tok))).1)
    (hT : ∃ p, A.tfidfOracle (pyStrip (strLower tok)) = some p ∧ 1/2 < p.2) :
    find_best_match A tok = fuzzyStep A tok (pyStrip (strLower tok)) ∧
      ∃ idx, (bestFuzzy A (pyStrip (strLower tok))).2 = some idx ∧
        find_best_match A tok =
          some (mkMatch tok (rowAt A idx) (bestFuzzy A (pyStrip (strLower tok))).1
            ("fuzzy_match (" ++ fmt2 (bestFuzzy A (pyStrip (strLower tok))).1 ++ ")")) := by
  have hpos : 0 < (bestFuzzy A (pyStrip (strLower tok))).1 :=
    lt_of_lt_of_le (by norm_num) hF
  obtain ⟨idx, hidx⟩ := Option.isSome_iff_exists.mp (bestFuzzy_pos_isSome A _ hpos)
  have hfz : fuzzyStep A tok (pyStrip (strLower tok)) =
      some (mkMatch tok (rowAt A idx) (bestFuzzy A (pyStrip (strLower tok))).1
        ("fuzzy_match (" ++ fmt2 (bestFuzzy A (pyStrip (strLower tok))).1 ++ ")")) := by
    simp only [fuzzyStep, if_pos hF, hidx]
  have hmain : find_best_match A tok = fuzzyStep A tok (pyStrip (strLower tok)) := by
    simp only [find_best_match, exactStep, hE, hfz]
  exact ⟨hmain, idx, hidx, by rw [hmain, hfz]⟩

/-- Claim C1 witness: the spec's scenario — every fuzzy ratio 0.85 and vector
similarity 0.90 — on a token absent from the variant index. -/
theorem c1_fuzzy_priority_witness :
    dictGet (ingredientMap analyzerF) (pyStrip (strLower "zzz")) = none ∧
      4/5 ≤ (bestFuzzy analyzerF (pyStrip (strLower "zzz"))).1 ∧
      (∃ p, analyzerF.tfidfOracle (pyStrip (strLower "zzz")) = some p ∧ 1/2 < p.2) ∧
      (find_best_match analyzerF "zzz" =
          fuzzyStep analyzerF "zzz" (pyStrip (strLower "zzz")) ∧
        ∃ idx, (bestFuzzy analyzerF (pyStrip (strLower "zzz"))).2 = some idx ∧
          find_best_match analyzerF "zzz" =
            some (mkMatch "zzz" (rowAt analyzerF idx)
              (bestFuzzy analyzerF (pyStrip (strLower "zzz"))).1
              ("fuzzy_match (" ++
                fmt2 (bestFuzzy analyzerF (pyStrip (strLower "zzz"))).1 ++ ")"))) :=
  ⟨by decide, by decide, ⟨(0, 9/10), rfl, by norm_num⟩,
    c1_fuzzy_priority analyzerF "zzz" (by decide) (by decide)
      ⟨(0, 9/10), rfl, by norm_num⟩⟩

/- ### Method-tag provenance (for claim C9) -/

theorem exactStep_method (A : FoodAnalyzer) (i l : String) (r : IngredientResult)
    (h : exactStep A i l = some r) : r.method = "exact_match" := by
  simp only [exactStep] at h
  split at h
  · injection h with h2; rw [← h2]; rfl
  · exact absurd h (by simp)

theorem fuzzyStep_method (A : FoodAnalyzer) (i l : String) (r : IngredientResult)
    (h : fuzzyStep A i l = some r) : ∃ s, r.method = "fuzzy_match (" ++ s ++ ")" := by
  simp only [fuzzyStep] at h
  split at h
  · split at h
    · exact ⟨_, by injection h with h2; rw [← h2]; rfl⟩
    · exact absurd h (by simp)
  · exact absurd h (by simp)

theorem tfidfStep_method (A : FoodAnalyzer) (i l : String) (r : IngredientResult)
    (h : tfidfStep A i l = some r) : ∃ s, r.method = "tfidf_match (" ++ s ++ ")" := by
  simp only [tfidfStep] at h
  split at h
  · split at h
    · exact ⟨_, by injection h with h2; rw [← h2]; rfl⟩
    · exact absurd h (by simp)
  · exact absurd h (by simp)

theorem overlapStep_method (A : FoodAnalyzer) (i l : String) (r : IngredientResult)
    (h : overlapStep A i l = some r) : ∃ s, r.method = "partial_match (" ++ s ++ ")" := by
  simp only [overlapStep] at h
  split at h
  · split at h
    · exact ⟨_, by injection h with h2; rw [← h2]; rfl⟩
    · exact absurd h (by simp)
  · exact absurd h (by simp)

theorem find_best_match_method (A : FoodAnalyzer) (tok : String) (r : IngredientResult)
    (h : find_best_match A tok = some r) :
    r.method = "exact_match" ∨
      (∃ s, r.method = "fuzzy_match (" ++ s ++ ")") ∨
      (∃ s, r.method = "tfidf_match (" ++ s ++ ")") ∨
      (∃ s, r.method = "partial_match (" ++ s ++ ")") := by
  simp only [find_best_match] at h
  split at h
  next r1 h1 =>
    have h2 : r1 = r := by injection h
    exact Or.inl (h2 ▸ exactStep_method A _ _ _ h1)
  next h1 =>
    split at h
    next r2 h2 =>
      have h3 : r2 = r := by injection h
      exact Or.inr (Or.inl (h3 ▸ fuzzyStep_method A _ _ _ h2))
    next h2 =>
      split at h
      next r3 h3 =>
        have h4 : r3 = r := by injection h
        exact Or.inr (Or.inr (Or.inl (h4 ▸ tfidfStep_method A _ _ _ h3)))
      next h3 => exact Or.inr (Or.inr (Or.inr (overlapStep_method A _ _ _ h)))

/-- Claim C9 counterexample: a fuzzy hit carries the formatted score inside its
method tag — "fuzzy_match (0.85)" — which is none of the six bare
identifiers. -/
theorem c9_counterexample :
    (resolveToken analyzerF "zzz").method ∉
      (["exact_match", "fuzzy_match", "tfidf_match", "partial_match",
        "keyword_detection", "not_found"] : List String) := by decide

/-- Claim C9 amended: every result's method tag is the bare identifier
exact_match, keyword_detection or not_found, or one of fuzzy_match /
tfidf_match / partial_match followed by the formatted score in parentheses. -/
theorem c9_method_tags (A : FoodAnalyzer) (tok : String) :
    (resolveToken A tok).method = "exact_match" ∨
      (resolveToken A tok).method = "keyword_detection" ∨
      (resolveToken A tok).method = "not_found" ∨
      (∃ s, (resolveToken A tok).method = "fuzzy_match (" ++ s ++ ")") ∨
      (∃ s, (resolveToken A tok).method = "tfidf_match (" ++ s ++ ")") ∨
      (∃ s, (resolveToken A tok).method = "partial_match (" ++ s ++ ")") := by
  unfold resolveToken
  cases h : find_best_match A tok with
  | none =>
    rcases (classifier_conf_method tok).2 with ⟨_, hm⟩ | ⟨_, _, hm⟩
    · exact Or.inr (Or.inr (Or.inl hm))
    · exact Or.inr (Or.inl hm)
  | some r =>
    rcases find_best_match_method A tok r h with h1 | h1 | h1 | h1
    · exact Or.inl h1
    · exact Or.inr (Or.inr (Or.inr (Or.inl h1)))
    · exact Or.inr (Or.inr (Or.inr (Or.inr (Or.inl h1))))
    · exact Or.inr (Or.inr (Or.inr (Or.inr (Or.inr h1))))

/-- Claim C8 counterexample: "abc e621 def" contains the standalone code e621,
yet no token equals "monosodium glutamate" — the replacement is merged into the
single larger token. -/
theorem c8_counterexample :
    pyIn " e621 " "abc e621 def" = true ∧
      extract_ingredients_list (clean_ingredient_text "abc e621 def") =
        ["abc monosodium glutamate def"] ∧
      "monosodium glutamate" ∉
        extract_ingredients_list (clean_ingredient_text "abc e621 def") := by decide

/-- Claim C8 amended: normalization replaces standalone e621 with "monosodium
glutamate" in the normalized text, and when the code is its own comma-delimited
item the mapped name survives as a token; in particular the end-to-end example
"Water, Sugar, Maida, E621" tokenizes exactly as claimed. -/
theorem c8_normalizer_roundtrip :
    extract_ingredients_list (clean_ingredient_text "Water, Sugar, Maida, E621") =
        ["water", "sugar", "refined wheat flour", "monosodium glutamate"] ∧
      "monosodium glutamate" ∈
        extract_ingredients_list (clean_ingredient_text "Water, Sugar, Maida, E621") ∧
      extract_ingredients_list (clean_ingredient_text "e621") = ["monosodium glutamate"] ∧
      pyIn "monosodium glutamate" (clean_ingredient_text "abc e621 def") = true := by decide

/- ### Variant-index construction lemmas (for claim C7) -/

theorem buildMapAux_append (l1 l2 : List ReferenceEntry) (i : Nat)
    (m : List (String × Nat)) :
    buildMapAux i (l1 ++ l2) m = buildMapAux (i + l1.length) l2 (buildMapAux i l1 m) := by
  induction l1 generalizing i m with
  | nil => simp [buildMapAux]
  | cons e l1 ih =>
    simp only [List.cons_append, buildMapAux, List.append_eq]
    rw [ih]
    simp only [List.length_cons]
    congr 1
    omega

theorem create_append (df : List ReferenceEntry) (e : ReferenceEntry) :
    create_ingredient_variations (df ++ [e]) =
      addEntry (create_ingredient_variations df) df.length e := by
  unfold create_ingredient_variations
  rw [buildMapAux_append]
  simp [buildMapAux]

theorem lastIdxFrom_append (p : ReferenceEntry → Bool) (b : Nat)
    (l : List ReferenceEntry) (e : ReferenceEntry) :
    lastIdxFrom p b (l ++ [e]) =
      if p e then some (b + l.length) else lastIdxFrom p b l := by
  induction l generalizing b with
  | nil => by_cases hp : p e <;> simp [lastIdxFrom, hp]
  | cons e0 l ih =>
    simp only [List.cons_append, lastIdxFrom, List.append_eq]
    rw [ih]
    by_cases hp : p e
    · rw [if_pos hp, if_pos hp]
      simp only [List.length_cons]
      congr 1
      omega
    · rw [if_neg hp, if_neg hp]

theorem firstIdxFrom_append (p : ReferenceEntry → Bool) (b : Nat)
    (l : List ReferenceEntry) (e : ReferenceEntry) :
    firstIdxFrom p b (l ++ [e]) =
      match firstIdxFrom p b l with
      | some i => some i
      | none => if p e then some (b + l.length) else none := by
  induction l generalizing b with
  | nil => by_cases hp : p e <;> simp [firstIdxFrom, hp]
  | cons e0 l ih =>
    simp only [List.cons_append, firstIdxFrom, List.append_eq]
    by_cases hp0 : p e0
    · rw [if_pos hp0, if_pos hp0]
    · rw [if_neg hp0, if_neg hp0, ih]
      cases firstIdxFrom p (b + 1) l with
      | some i => rfl
      | none =>
        by_cases hp : p e
        · rw [if_pos hp, if_pos hp]
          simp only [List.length_cons, Option.some.injEq]
          omega
        · rw [if_neg hp, if_neg hp]


theorem addEntry_get (m : List (String × Nat)) (n : Nat) (e : ReferenceEntry)
    (k : String) :
    dictGet (addEntry m n e) k =
      if ingredientLC e = k then some n
      else if variantKey e = some k ∧ dictGet m k = none then some n
      else dictGet m k := by
  simp only [addEntry]
  split_ifs with h1 h2 h2 h3 h3
  all_goals simp_all [dictGet_insert, variantKey]
  · intro hclk
    exfalso
    have hm1 : dictGet (dictInsert m (ingredientLC e) n) (fillerStrip (ingredientLC e)) =
        dictGet m k := by
      rw [dictGet_insert, if_neg (fun hh => h1.1.2 hh.symm), hclk]
    have hmem := h1.2
    unfold dictMem at hmem
    rw [hm1] at hmem
    cases hg : dictGet m k with
    | none => exact h2 hclk hg
    | some x =>
      rw [hg] at hmem
      exact absurd hmem (by simp)
  · obtain ⟨⟨⟨hne1, hne2⟩, heq⟩, hnone⟩ := h3
    subst heq
    have hmem := h1 hne1 hne2
    unfold dictMem at hmem
    rw [dictGet_insert, if_neg (fun hh => hne2 hh.symm), hnone] at hmem
    exact absurd hmem (by simp)

/-- Claim C7 counterexample: in the two-row catalog ["Sugar Powder", "Sugar"],
the first entry's filler-stripped variant "sugar" differs from its exact name
and is claimed by no earlier entry, yet after construction the key "sugar"
resolves to entry 1, not entry 0 — the second entry's unconditional exact-name
assignment overwrote it. -/
theorem c7_counterexample :
    ingredientLC ⟨"Sugar Powder", 4, "Caution", "Refined sugar", "Sweeteners"⟩ =
        "sugar powder" ∧
      fillerStrip "sugar powder" = "sugar" ∧
      ingredientLC ⟨"Sugar", 3, "Caution", "Refined sugar", "Sweeteners"⟩ = "sugar" ∧
      dictGet (create_ingredient_variations dfC7) "sugar" = some 1 ∧
      dictGet (create_ingredient_variations dfC7) "sugar" ≠ some 0 := by decide

/-- Claim C7 amended: the variant index maps a key that is some entry's exact
lowercased-and-trimmed canonical name to the LAST such entry (exact-name
assignment overwrites unconditionally, including an earlier entry's registered
filler-stripped variant); every other key maps to the first entry whose
filler-stripped variant it is (first-registered wins among variant-variant
collisions); no other keys exist. -/
theorem c7_variant_index (df : List ReferenceEntry) (k : String) :
    dictGet (create_ingredient_variations df) k = variantIndexSpec df k := by
  induction df using List.reverseRecOn with
  | nil => rfl
  | append_singleton df e ih =>
    rw [create_append, addEntry_get]
    simp only [variantIndexSpec] at ih ⊢
    rw [lastIdxFrom_append, firstIdxFrom_append]
    by_cases hk : ingredientLC e = k
    · rw [if_pos hk, if_pos (show decide (ingredientLC e = k) = true from by simp [hk])]
      simp
    · rw [if_neg hk,
        if_neg (show ¬ decide (ingredientLC e = k) = true from by simp [hk])]
      cases hL : lastIdxFrom (fun e => decide (ingredientLC e = k)) 0 df with
      | some i =>
        have hgm : dictGet (create_ingredient_variations df) k = some i := by
          rw [ih, hL]
        rw [if_neg (fun hand => by rw [hgm] at hand; exact Option.noConfusion hand.2),
          hgm]
      | none =>
        cases hF : firstIdxFrom (fun e => decide (variantKey e = some k)) 0 df with
        | some j =>
          have hgm : dictGet (create_ingredient_variations df) k = some j := by
            rw [ih, hL, hF]
          rw [if_neg (fun hand => by rw [hgm] at hand; exact Option.noConfusion hand.2),
            hgm]
        | none =>
          have hgm : dictGet (create_ingredient_variations df) k = none := by
            rw [ih, hL, hF]
          by_cases hv : variantKey e = some k
          · rw [if_pos ⟨hv, hgm⟩,
              if_pos (show decide (variantKey e = some k) = true from by simp [hv])]
            simp
          · rw [if_neg (fun hand => hv hand.1), hgm,
              if_neg (show ¬ decide (variantKey e = some k) = true from by simp [hv])]
